import Mathlib

/-!
Shallow embedding of the L'Hôpital limit solver (`src/main.rs`).

Numeric values are modelled as exact rationals `ℚ`; the platform
floating-point power function `f64::powf` is modelled as an explicit
function parameter `powf : ℚ → ℚ → ℚ`, since its semantics are supplied
by the platform and not by this repository.  A Rust `panic!` is modelled
as an explicit `panicked` outcome distinct from the `Err` results that
`lhopital_solve` returns as values.
-/

section
attribute [local semireducible] Rat.mul Rat.inv Rat.add Rat.sub

namespace Lhopital

/-- The expression tree of `src/main.rs` (`enum Expression`). -/
inductive Expression where
  | Constant : ℚ → Expression
  | Variable : Expression
  | Sum : Expression → Expression → Expression
  | Difference : Expression → Expression → Expression
  | Product : Expression → Expression → Expression
  | Power : Expression → ℚ → Expression
deriving DecidableEq, Repr

/-- `Expression::evaluate`, with the platform power function passed in. -/
def evaluate (powf : ℚ → ℚ → ℚ) : Expression → ℚ → ℚ
  | .Constant c, _ => c
  | .Variable, x => x
  | .Sum a b, x => evaluate powf a x + evaluate powf b x
  | .Difference a b, x => evaluate powf a x - evaluate powf b x
  | .Product a b, x => evaluate powf a x * evaluate powf b x
  | .Power base e, x => powf (evaluate powf base x) e

/-- Panic message of the `Power` arm of `differentiate`. -/
def powerUnsupportedMsg : String :=
  "Differentiation for this power expression is not implemented."

/-- Panic message of the wildcard arm of `differentiate`. -/
def ruleUnsupportedMsg : String :=
  "Differentiation rule not implemented for this expression."

/-- `Expression::differentiate`; the two `panic!` arms are modelled as
`Except.error` carrying the panic message, and a panic in a subterm
propagates (left subterm first, as Rust evaluates it first). -/
def differentiate : Expression → Except String Expression
  | .Constant _ => .ok (.Constant 0)
  | .Variable => .ok (.Constant 1)
  | .Sum a b =>
    match differentiate a, differentiate b with
    | .ok a2, .ok b2 => .ok (.Sum a2 b2)
    | .error m, _ => .error m
    | _, .error m => .error m
  | .Difference a b =>
    match differentiate a, differentiate b with
    | .ok a2, .ok b2 => .ok (.Difference a2 b2)
    | .error m, _ => .error m
    | _, .error m => .error m
  | .Power base e =>
    match base with
    | .Variable => .ok (.Product (.Constant e) (.Power .Variable (e - 1)))
    | _ => .error powerUnsupportedMsg
  | .Product _ _ => .error ruleUnsupportedMsg

/-- The single shared tolerance `1e-9` of `lhopital_solve`. -/
def eps : ℚ := 1 / 1000000000

/-- Error string returned when the denominator alone is near zero. -/
def divisionByZeroMsg : String := "Limit results in division by zero."

/-- Error string returned when the iteration budget is exhausted. -/
def maxIterationsMsg : String :=
  "Exceeded max iterations, could not find a determinate form."

/-- Outcome of a `lhopital_solve` run: an `Ok` value, an `Err` value, or a
process-terminating `panic!` raised inside `differentiate`. -/
inductive SolveResult where
  | ok : ℚ → SolveResult
  | err : String → SolveResult
  | panicked : String → SolveResult
deriving DecidableEq, Repr

/-- `lhopital_solve`: the `for i in 0..max_iterations` loop as structural
recursion on the remaining iteration budget. -/
def lhopital_solve (powf : ℚ → ℚ → ℚ) :
    Expression → Expression → ℚ → Nat → SolveResult
  | _, _, _, 0 => .err maxIterationsMsg
  | num, den, a, n + 1 =>
    let numVal := evaluate powf num a
    let denVal := evaluate powf den a
    if |numVal| < eps ∧ |denVal| < eps then
      match differentiate num, differentiate den with
      | .ok num2, .ok den2 => lhopital_solve powf num2 den2 a n
      | .error m, _ => .panicked m
      | _, .error m => .panicked m
    else if |denVal| < eps then
      .err divisionByZeroMsg
    else
      .ok (numVal / denVal)

/-- Number of loop iterations a `lhopital_solve` run actually performs. -/
def lhopital_iters (powf : ℚ → ℚ → ℚ) :
    Expression → Expression → ℚ → Nat → Nat
  | _, _, _, 0 => 0
  | num, den, a, n + 1 =>
    if |evaluate powf num a| < eps ∧ |evaluate powf den a| < eps then
      match differentiate num, differentiate den with
      | .ok num2, .ok den2 => lhopital_iters powf num2 den2 a n + 1
      | _, _ => 1
    else 1

/-- A concrete power function agreeing with `f64::powf` on nonnegative
integer exponents; used to instantiate the `powf` parameter in witnesses. -/
def powQ (b e : ℚ) : ℚ :=
  if 0 ≤ e.num ∧ e.den = 1 then b ^ e.num.toNat else 0

/-- Helper: `differentiate` fails only with one of the two panic messages
of the source. -/
theorem differentiate_error_msg :
    ∀ e m, differentiate e = .error m →
      m = powerUnsupportedMsg ∨ m = ruleUnsupportedMsg := by
  intro e
  induction e with
  | Constant c => intro m h; exact Except.noConfusion h
  | Variable => intro m h; exact Except.noConfusion h
  | Sum a b iha ihb =>
    intro m h
    cases ha : differentiate a with
    | ok a2 =>
      cases hb : differentiate b with
      | ok b2 =>
        have hs : differentiate (.Sum a b) = .ok (.Sum a2 b2) := by
          simp [differentiate, ha, hb]
        rw [hs] at h; exact Except.noConfusion h
      | error mb =>
        have hs : differentiate (.Sum a b) = .error mb := by
          simp [differentiate, ha, hb]
        rw [hs] at h
        have h2 := Except.error.inj h; subst h2; exact ihb mb hb
    | error ma =>
      have hs : differentiate (.Sum a b) = .error ma := by
        simp [differentiate, ha]
      rw [hs] at h
      have h2 := Except.error.inj h; subst h2; exact iha ma ha
  | Difference a b iha ihb =>
    intro m h
    cases ha : differentiate a with
    | ok a2 =>
      cases hb : differentiate b with
      | ok b2 =>
        have hs : differentiate (.Difference a b) = .ok (.Difference a2 b2) := by
          simp [differentiate, ha, hb]
        rw [hs] at h; exact Except.noConfusion h
      | error mb =>
        have hs : differentiate (.Difference a b) = .error mb := by
          simp [differentiate, ha, hb]
        rw [hs] at h
        have h2 := Except.error.inj h; subst h2; exact ihb mb hb
    | error ma =>
      have hs : differentiate (.Difference a b) = .error ma := by
        simp [differentiate, ha]
      rw [hs] at h
      have h2 := Except.error.inj h; subst h2; exact iha ma ha
  | Product a b iha ihb =>
    intro m h
    exact Or.inr (Except.error.inj h).symm
  | Power base e ih =>
    intro m h
    cases base with
    | Variable => exact Except.noConfusion h
    | Constant c => exact Or.inl (Except.error.inj h).symm
    | Sum x y => exact Or.inl (Except.error.inj h).symm
    | Difference x y => exact Or.inl (Except.error.inj h).symm
    | Product x y => exact Or.inl (Except.error.inj h).symm
    | Power x y => exact Or.inl (Except.error.inj h).symm

/-- C3: `evaluate` is total (a Lean function by structural recursion) and
satisfies the six defining equations of the spec: constants evaluate to
themselves, the variable to the point, Sum/Difference/Product to the
pointwise sum/difference/product of their children, and Power to the
platform power function applied to the evaluated base and the exponent. -/
theorem evaluate_defining_equations
    (powf : ℚ → ℚ → ℚ) (c x n : ℚ) (a b base : Expression) :
    evaluate powf (.Constant c) x = c ∧
    evaluate powf .Variable x = x ∧
    evaluate powf (.Sum a b) x = evaluate powf a x + evaluate powf b x ∧
    evaluate powf (.Difference a b) x =
      evaluate powf a x - evaluate powf b x ∧
    evaluate powf (.Product a b) x =
      evaluate powf a x * evaluate powf b x ∧
    evaluate powf (.Power base n) x = powf (evaluate powf base x) n :=
  ⟨rfl, rfl, rfl, rfl, rfl, rfl⟩

/-- C8: with an iteration budget of zero, `lhopital_solve` immediately
returns the MaxIterationsExceeded error, for every power function, every
pair of expressions and every point — in particular without evaluating
either expression. -/
theorem lhopital_solve_zero_budget
    (powf : ℚ → ℚ → ℚ) (num den : Expression) (a : ℚ) :
    lhopital_solve powf num den a 0 = .err maxIterationsMsg := rfl

/-- C4 counterexample: differentiating `Power(Variable, 2)` twice does not
yield nested Product nodes — the second differentiation hits the Product
node and fails with the unimplemented-rule panic. -/
theorem differentiate_twice_power_cex :
    differentiate (.Power .Variable 2) =
      .ok (.Product (.Constant 2) (.Power .Variable 1)) ∧
    differentiate (.Product (.Constant 2) (.Power .Variable 1)) =
      .error ruleUnsupportedMsg := by
  constructor
  · show Except.ok (Expression.Product (.Constant 2) (.Power .Variable (2 - 1))) = _
    norm_num
  · rfl

/-- C4 amended: for every exponent n, `differentiate (Power Variable n)`
returns exactly `Product (Constant n) (Power Variable (n-1))`, with no
further simplification; a second application of `differentiate` to this
result fails with the unimplemented-rule panic (the Product node has no
rule) rather than producing nested Products. -/
theorem differentiate_power_rule (n : ℚ) :
    differentiate (.Power .Variable n) =
      .ok (.Product (.Constant n) (.Power .Variable (n - 1))) ∧
    differentiate (.Product (.Constant n) (.Power .Variable (n - 1))) =
      .error ruleUnsupportedMsg :=
  ⟨rfl, rfl⟩

/-- C2: evaluating the code at the spec's scenario 4. `differentiate` on a
Product node, and on a Power node whose base is not `Variable`, reaches the
source's `panic!` arms (modelled as the `error` results below); inside
`lhopital_solve` this panic propagates as process termination (`panicked`),
not as a returned `Err` value, contradicting the claim that the caller
receives a catchable DifferentiationUnsupported error. -/
theorem differentiate_unsupported_panic_behavior :
    differentiate (.Product .Variable .Variable) =
      .error ruleUnsupportedMsg ∧
    differentiate (.Power (.Sum .Variable .Variable) 2) =
      .error powerUnsupportedMsg ∧
    lhopital_solve powQ (.Product .Variable .Variable) .Variable 0 1 =
      .panicked ruleUnsupportedMsg :=
  ⟨rfl, rfl, rfl⟩

/-- C1 counterexample: at numerator `Product(Variable, Variable)`,
denominator `Variable`, point 0, both values are within the tolerance, yet
the iteration does not replace the trees and continue — the run terminates
at once with the differentiation panic, an outcome outside the claimed
continue / DivisionByZero / ratio trichotomy. -/
theorem solve_indeterminate_step_panics_cex :
    |evaluate powQ (.Product .Variable .Variable) 0| < eps ∧
    |evaluate powQ .Variable 0| < eps ∧
    lhopital_solve powQ (.Product .Variable .Variable) .Variable 0 5 =
      .panicked ruleUnsupportedMsg ∧
    decide (lhopital_solve powQ (.Product .Variable .Variable) .Variable 0 5
      = .err divisionByZeroMsg) = false :=
  ⟨by decide, by decide, rfl, rfl⟩

/-- C1 amended: one iteration of `lhopital_solve` first checks
`|numVal| < eps ∧ |denVal| < eps` (replacing both trees by their
derivatives and continuing when both differentiations succeed, and
propagating the differentiation panic otherwise), then checks
`|denVal| < eps` (returning the DivisionByZero error), and otherwise
returns `numVal / denVal` — with the single shared tolerance `eps = 1e-9`
in every check. -/
theorem lhopital_solve_step_classification
    (powf : ℚ → ℚ → ℚ) (num den num2 den2 : Expression) (a : ℚ)
    (n : Nat) (m : String) :
    (|evaluate powf num a| < eps → |evaluate powf den a| < eps →
      differentiate num = .ok num2 → differentiate den = .ok den2 →
      lhopital_solve powf num den a (n + 1) =
        lhopital_solve powf num2 den2 a n) ∧
    (|evaluate powf num a| < eps → |evaluate powf den a| < eps →
      differentiate num = .error m →
      lhopital_solve powf num den a (n + 1) = .panicked m) ∧
    (|evaluate powf num a| < eps → |evaluate powf den a| < eps →
      differentiate num = .ok num2 → differentiate den = .error m →
      lhopital_solve powf num den a (n + 1) = .panicked m) ∧
    (¬ |evaluate powf num a| < eps → |evaluate powf den a| < eps →
      lhopital_solve powf num den a (n + 1) = .err divisionByZeroMsg) ∧
    (¬ |evaluate powf den a| < eps →
      lhopital_solve powf num den a (n + 1) =
        .ok (evaluate powf num a / evaluate powf den a)) := by
  refine ⟨?_, ?_, ?_, ?_, ?_⟩
  · intro h1 h2 hn hd
    simp [lhopital_solve, h1, h2, hn, hd]
  · intro h1 h2 hn
    simp [lhopital_solve, h1, h2, hn]
  · intro h1 h2 hn hd
    simp [lhopital_solve, h1, h2, hn, hd]
  · intro h1 h2
    simp [lhopital_solve, h1, h2]
  · intro h2
    simp [lhopital_solve, h2]

/-- C1 witness: the third check at work — numerator and denominator both
`Constant 1` at point 0 give a denominator away from zero, so one step
returns their ratio 1. -/
theorem lhopital_solve_step_classification_witness :
    lhopital_solve powQ (.Constant 1) (.Constant 1) 0 1 = .ok 1 := by
  have h := (lhopital_solve_step_classification powQ (.Constant 1)
    (.Constant 1) (.Constant 0) (.Constant 0) 0 0 "").2.2.2.2 (by decide)
  rw [h]
  decide

/-- C5 counterexample: after iteration 0 of the spec's scenario 1, the
working numerator is `Difference(Product(Constant 2, Power(Variable, 1)),
Constant 0)`, not `Product(Constant 2, Power(Variable, 1))`, and the
working denominator is `Difference(Constant 1, Constant 0)`, not
`Constant 1` — the source performs no simplification of the Difference. -/
theorem scenario1_intermediate_trees_cex :
    differentiate (.Difference (.Power .Variable 2) (.Constant 4)) =
      .ok (.Difference (.Product (.Constant 2) (.Power .Variable 1))
        (.Constant 0)) ∧
    differentiate (.Difference .Variable (.Constant 2)) =
      .ok (.Difference (.Constant 1) (.Constant 0)) ∧
    decide ((Expression.Difference (.Constant 1) (.Constant 0))
      = .Constant 1) = false ∧
    decide ((Expression.Difference
        (.Product (.Constant 2) (.Power .Variable 1)) (.Constant 0))
      = .Product (.Constant 2) (.Power .Variable 1)) = false := by
  refine ⟨rfl, rfl, rfl, rfl⟩

/-- C5 amended: scenario 1 with the intermediate trees the code actually
builds. For any power function agreeing with `f64::powf` on the two
applications the run performs (`2^2 = 4`, `2^1 = 2`): iteration 0 finds
0/0, replaces the numerator with `Difference(Product(Constant 2,
Power(Variable, 1)), Constant 0)` and the denominator with
`Difference(Constant 1, Constant 0)`; iteration 1 evaluates them to 4 and
1 and returns 4. -/
theorem scenario1_solve (powf : ℚ → ℚ → ℚ)
    (h22 : powf 2 2 = 4) (h21 : powf 2 1 = 2) :
    evaluate powf (.Difference (.Power .Variable 2) (.Constant 4)) 2 = 0 ∧
    evaluate powf (.Difference .Variable (.Constant 2)) 2 = 0 ∧
    differentiate (.Difference (.Power .Variable 2) (.Constant 4)) =
      .ok (.Difference (.Product (.Constant 2) (.Power .Variable 1))
        (.Constant 0)) ∧
    differentiate (.Difference .Variable (.Constant 2)) =
      .ok (.Difference (.Constant 1) (.Constant 0)) ∧
    evaluate powf (.Difference
      (.Product (.Constant 2) (.Power .Variable 1)) (.Constant 0)) 2 = 4 ∧
    evaluate powf (.Difference (.Constant 1) (.Constant 0)) 2 = 1 ∧
    lhopital_solve powf (.Difference (.Power .Variable 2) (.Constant 4))
      (.Difference .Variable (.Constant 2)) 2 5 = .ok 4 := by
  have e1 : evaluate powf (.Difference (.Power .Variable 2) (.Constant 4)) 2
      = 0 := by
    simp [evaluate, h22]
  have e2 : evaluate powf (.Difference .Variable (.Constant 2)) 2 = 0 := by
    simp [evaluate]
  have d1 : differentiate (.Difference (.Power .Variable 2) (.Constant 4)) =
      .ok (.Difference (.Product (.Constant 2) (.Power .Variable 1))
        (.Constant 0)) := rfl
  have d2 : differentiate (.Difference .Variable (.Constant 2)) =
      .ok (.Difference (.Constant 1) (.Constant 0)) := rfl
  have e3 : evaluate powf (.Difference
      (.Product (.Constant 2) (.Power .Variable 1)) (.Constant 0)) 2 = 4 := by
    simp [evaluate, h21]
    norm_num
  have e4 : evaluate powf (.Difference (.Constant 1) (.Constant 0)) 2 = 1 := by
    simp [evaluate]
  have hz : |(0 : ℚ)| < eps := by rw [abs_zero, eps]; norm_num
  have h4 : ¬ |(1 : ℚ)| < eps := by rw [abs_one, eps]; norm_num
  have step1 : lhopital_solve powf
      (.Difference (.Power .Variable 2) (.Constant 4))
      (.Difference .Variable (.Constant 2)) 2 5 =
      lhopital_solve powf
        (.Difference (.Product (.Constant 2) (.Power .Variable 1))
          (.Constant 0))
        (.Difference (.Constant 1) (.Constant 0)) 2 4 := by
    simp only [lhopital_solve, e1, e2, d1, d2]
    rw [if_pos ⟨hz, hz⟩]
  have step2 : lhopital_solve powf
      (.Difference (.Product (.Constant 2) (.Power .Variable 1))
        (.Constant 0))
      (.Difference (.Constant 1) (.Constant 0)) 2 4 = .ok 4 := by
    have hc2 : ¬(|(4 : ℚ)| < eps ∧ |(1 : ℚ)| < eps) := fun hand => h4 hand.2
    simp only [lhopital_solve, e3, e4]
    rw [if_neg hc2, if_neg h4]
    norm_num
  exact ⟨e1, e2, d1, d2, e3, e4, step1.trans step2⟩

/-- C5 witness: the amended scenario run at the concrete power function
`powQ`, which computes `2^2 = 4` and `2^1 = 2`. -/
theorem scenario1_solve_witness :
    lhopital_solve powQ (.Difference (.Power .Variable 2) (.Constant 4))
      (.Difference .Variable (.Constant 2)) 2 5 = .ok 4 :=
  (scenario1_solve powQ (by decide) (by decide)).2.2.2.2.2.2

/-- C9: linearity of differentiation. When `differentiate` succeeds on `a`
and `b` with results `a2` and `b2`, it succeeds on `Sum a b` with
`Sum a2 b2`, whose value at every point is the sum of the values of the two
derivatives — and the Difference analogue. -/
theorem differentiate_linear (powf : ℚ → ℚ → ℚ)
    (a b a2 b2 : Expression) (x : ℚ)
    (ha : differentiate a = .ok a2) (hb : differentiate b = .ok b2) :
    differentiate (.Sum a b) = .ok (.Sum a2 b2) ∧
    evaluate powf (.Sum a2 b2) x =
      evaluate powf a2 x + evaluate powf b2 x ∧
    differentiate (.Difference a b) = .ok (.Difference a2 b2) ∧
    evaluate powf (.Difference a2 b2) x =
      evaluate powf a2 x - evaluate powf b2 x := by
  refine ⟨?_, rfl, ?_, rfl⟩ <;> simp [differentiate, ha, hb]

/-- C9 witness: linearity at the concrete pair `Variable` and
`Constant 5`, evaluated at the point 3. -/
theorem differentiate_linear_witness :
    differentiate (.Sum .Variable (.Constant 5)) =
      .ok (.Sum (.Constant 1) (.Constant 0)) ∧
    evaluate powQ (.Sum (.Constant 1) (.Constant 0)) 3 =
      evaluate powQ (.Constant 1) 3 + evaluate powQ (.Constant 0) 3 :=
  ⟨(differentiate_linear powQ .Variable (.Constant 5) (.Constant 1)
      (.Constant 0) 3 rfl rfl).1,
   (differentiate_linear powQ .Variable (.Constant 5) (.Constant 1)
      (.Constant 0) 3 rfl rfl).2.1⟩

/-- C6: `lhopital_solve` is total, performs at most `maxIterations` loop
iterations, and its result is always a numeric value, the DivisionByZero
error, the MaxIterationsExceeded error, or one of the two
differentiation-unsupported panics. -/
theorem lhopital_solve_terminates_classified
    (powf : ℚ → ℚ → ℚ) (num den : Expression) (a : ℚ) (n : Nat) :
    lhopital_iters powf num den a n ≤ n ∧
    ((∃ q, lhopital_solve powf num den a n = .ok q) ∨
     lhopital_solve powf num den a n = .err divisionByZeroMsg ∨
     lhopital_solve powf num den a n = .err maxIterationsMsg ∨
     lhopital_solve powf num den a n = .panicked powerUnsupportedMsg ∨
     lhopital_solve powf num den a n = .panicked ruleUnsupportedMsg) := by
  induction n generalizing num den with
  | zero => exact ⟨Nat.le_refl 0, Or.inr (Or.inr (Or.inl rfl))⟩
  | succ k ih =>
    by_cases hc : |evaluate powf num a| < eps ∧ |evaluate powf den a| < eps
    · cases hn : differentiate num with
      | ok num2 =>
        cases hd : differentiate den with
        | ok den2 =>
          have hs : lhopital_solve powf num den a (k + 1) =
              lhopital_solve powf num2 den2 a k := by
            simp [lhopital_solve, hc, hn, hd]
          have hi : lhopital_iters powf num den a (k + 1) =
              lhopital_iters powf num2 den2 a k + 1 := by
            simp [lhopital_iters, hc, hn, hd]
          obtain ⟨ihb, ihc⟩ := ih num2 den2
          refine ⟨by rw [hi]; omega, by rw [hs]; exact ihc⟩
        | error m =>
          have hs : lhopital_solve powf num den a (k + 1) = .panicked m := by
            simp [lhopital_solve, hc, hn, hd]
          have hi : lhopital_iters powf num den a (k + 1) = 1 := by
            simp [lhopital_iters, hc, hn, hd]
          refine ⟨by rw [hi]; omega, ?_⟩
          rcases differentiate_error_msg den m hd with h | h <;> rw [hs, h]
          · exact Or.inr (Or.inr (Or.inr (Or.inl rfl)))
          · exact Or.inr (Or.inr (Or.inr (Or.inr rfl)))
      | error m =>
        have hs : lhopital_solve powf num den a (k + 1) = .panicked m := by
          simp [lhopital_solve, hc, hn]
        have hi : lhopital_iters powf num den a (k + 1) = 1 := by
          simp [lhopital_iters, hc, hn]
        refine ⟨by rw [hi]; omega, ?_⟩
        rcases differentiate_error_msg num m hn with h | h <;> rw [hs, h]
        · exact Or.inr (Or.inr (Or.inr (Or.inl rfl)))
        · exact Or.inr (Or.inr (Or.inr (Or.inr rfl)))
    · by_cases hd : |evaluate powf den a| < eps
      · have h1 : ¬ |evaluate powf num a| < eps := fun h => hc ⟨h, hd⟩
        have hs : lhopital_solve powf num den a (k + 1) =
            .err divisionByZeroMsg := by
          simp [lhopital_solve, h1, hd]
        have hi : lhopital_iters powf num den a (k + 1) = 1 := by
          simp [lhopital_iters, hc]
        exact ⟨by rw [hi]; omega, Or.inr (Or.inl hs)⟩
      · have hs : lhopital_solve powf num den a (k + 1) =
            .ok (evaluate powf num a / evaluate powf den a) := by
          simp [lhopital_solve, hc, hd]
        have hi : lhopital_iters powf num den a (k + 1) = 1 := by
          simp [lhopital_iters, hc]
        exact ⟨by rw [hi]; omega, Or.inl ⟨_, hs⟩⟩

end Lhopital

end
